import Mathlib

/-!
Shallow embedding of the KnowUsBetter backend's room/round engine.

The definitions below are translated from the TypeScript sources:
* `src/roomManager.ts` — room repository (code generation, join, remove, reset, parse),
* `src/index.ts`      — the `submit-answer` socket handler and its deferred timers,
* `src/utils/helpers.ts` — `findAnswerObject` (answer canonicalization).

JavaScript idioms are modelled explicitly: object maps are insertion-ordered
association lists, `a || b` on strings treats `jsUndefinedined` and `""` as falsy,
and `Math.floor(Math.random() * chars.length)` is an arbitrary `Fin 35`.
-/

namespace KnowUsBetter

/-! ## Data model (`src/types.ts`, shapes as used by `helpers.ts` / `index.ts`) -/

/-- Multi-locale representation of one canonical answer choice, as built by
`findAnswerObject` in `src/utils/helpers.ts`. -/
structure MultiLanguageAnswer where
  en : String
  tr : String
  es : String
deriving DecidableEq, Repr

/-- The per-locale choice arrays of a fixed-answer-set question
(`question.answers` as destructured in `findAnswerObject`). -/
structure AnswerChoices where
  answers_en : List String
  answers_tr : List String
  answers_es : List String
deriving DecidableEq, Repr

/-- A question record. Display texts are opaque to every operation modelled
here and are carried as plain strings. `answers` is `none` when the record
has no choice arrays (JS falsy `question.answers`). -/
structure Question where
  id : String
  text_en : String
  text_tr : String
  text_es : String
  category : String
  haveAnswers : Bool
  answers : Option AnswerChoices
deriving DecidableEq, Repr

/-- A stored answer value: at runtime `string | MultiLanguageAnswer`.
An unanswered slot is `Option.none` at the use sites (`null` in JS). -/
inductive AnswerValue where
  | str (s : String)
  | multi (m : MultiLanguageAnswer)
deriving DecidableEq, Repr

/-- One question's in-flight or completed state. `answers` models the JS
object `{[playerId]: answer | null}` as an insertion-ordered association
list, which is the order `Object.values` enumerates. -/
structure QuestionRound where
  question : Question
  answers : List (String × Option AnswerValue)
  isMatched : Option Bool
  status : String
deriving DecidableEq, Repr

structure Player where
  id : String
  name : String
  avatar : String
  isHost : Bool
  hasAnswered : Bool
deriving DecidableEq, Repr

structure RoomSettings where
  maxPlayers : Nat
  totalQuestions : Nat
  category : String
  questionDuration : Nat
  resultDisplayDuration : Nat
deriving DecidableEq, Repr

/-- A room record. `status` is a plain string: `parseRoom` only validates
`typeof status === "string"`, so at runtime any string can occur; the valid
values are `"waiting"`, `"playing"`, `"finished"`. -/
structure Room where
  roomCode : String
  createdAt : Nat
  status : String
  players : List Player
  questions : List Question
  currentQuestionIndex : Nat
  currentRound : Option QuestionRound
  completedRounds : List QuestionRound
  matchScore : Nat
  totalQuestionsAnswered : Nat
  settings : RoomSettings
deriving DecidableEq, Repr

/-! ## Room-code generation (`roomManager.ts`, `generateRoomCode` / `createRoom`) -/

/-- The restricted alphabet `"ABCDEFGHIJKLMNOPQRSTUVWXYZ123456789"`:
26 uppercase letters and the 9 digits `1`-`9`, 35 symbols in total. -/
def roomCodeChars : List Char := "ABCDEFGHIJKLMNOPQRSTUVWXYZ123456789".toList

theorem roomCodeChars_len : roomCodeChars.length = 35 := by decide

/-- Model of `generateRoomCode`: four draws of `chars[Math.floor(Math.random() * chars.length)]`.
The random draw is modelled as an arbitrary `Fin 35` per position, since
`Math.random()` lies in `[0,1)` and the floored product lies in `[0, chars.length)`. -/
def generateRoomCode (rand : Nat → Fin 35) : String :=
  ((List.range 4).map
    (fun i => roomCodeChars.get (Fin.cast roomCodeChars_len.symm (rand i)))).asString

/-- Bound on `createRoom`'s retry count. -/
def maxAttempts : Nat := 100

/-- The retry loop of `createRoom`: generate a code, increment `attempts`,
throw (here: `none`) once `attempts >= maxAttempts`, otherwise accept the
code when no room with that code exists. `rand k` supplies the random draws
of attempt number `k` (0-based); `fuel` bounds the structural recursion and
is started at `maxAttempts`, which the `attempts` guard never exceeds. -/
def createRoomCodeAux (ex : String → Bool) (rand : Nat → Nat → Fin 35) :
    Nat → Nat → Option String
  | _, 0 => none
  | attempts, fuel + 1 =>
    let roomCode := generateRoomCode (rand attempts)
    let attempts := attempts + 1
    if maxAttempts ≤ attempts then none
    else if ex roomCode = false then some roomCode
    else createRoomCodeAux ex rand attempts fuel

/-- The room code `createRoom` assigns, or `none` when generation is
exhausted after `maxAttempts` tries (`ex` models `redis.exists`). -/
def createRoomCode (ex : String → Bool) (rand : Nat → Nat → Fin 35) : Option String :=
  createRoomCodeAux ex rand 0 maxAttempts

/-! ## Percentage computation (`index.ts`, submit-answer handler) -/

/-- Idealization of `room.totalQuestionsAnswered > 0 ?
Math.round(matchScore / total * 100) : 0` with exact rational division —
the formula as the spec states it. The program evaluates the division and
the product in IEEE-754 binary64, which `jsComputePercentage` below models
bit-accurately; the two agree for all totals reachable in a game
(`totalQuestions = 10`) but can differ beyond that (57 versus 58 at
23/40). -/
def computePercentage (matchScore totalQuestionsAnswered : Nat) : Int :=
  if 0 < totalQuestionsAnswered then
    round ((matchScore : ℚ) / (totalQuestionsAnswered : ℚ) * 100)
  else 0

/-- Nearest integer with ties to even, the IEEE-754 significand rounding. -/
def roundHalfEven (y : ℚ) : ℤ :=
  let f := ⌊y⌋
  let r := y - (f : ℚ)
  if r < 1 / 2 then f
  else if 1 / 2 < r then f + 1
  else if f % 2 = 0 then f else f + 1

/-- Halve a rational until it drops below 2, counting binary exponent up;
structural fuel keeps the recursion kernel-reducible. -/
def binExpDown : Nat → ℚ → ℤ → ℤ
  | 0, _, e => e
  | fuel + 1, x, e => if x < 2 then e else binExpDown fuel (x / 2) (e + 1)

/-- Double a rational until it reaches 1, counting binary exponent down. -/
def binExpUp : Nat → ℚ → ℤ → ℤ
  | 0, _, e => e
  | fuel + 1, x, e => if 1 ≤ x then e else binExpUp fuel (x * 2) (e - 1)

/-- The binary exponent of a positive rational: the `e` with
`2 ^ e ≤ x < 2 ^ (e + 1)`. The fuel of 2200 covers the whole binary64
normal range, far beyond every value arising in the percentage pipeline. -/
def binExp (x : ℚ) : ℤ :=
  if 1 ≤ x then binExpDown 2200 x 0 else binExpUp 2200 x 0

/-- Round a rational to the nearest IEEE-754 binary64 value (round to
nearest, ties to even): snap to the 53-bit-significand grid at the value's
binary exponent. Faithful on the binary64 normal range, which contains
every nonzero value of the percentage computation; nonpositive inputs
(only 0 occurs here) map to 0. -/
def flDouble (x : ℚ) : ℚ :=
  if x ≤ 0 then 0
  else (roundHalfEven (x / 2 ^ (binExp x - 52)) : ℚ) * 2 ^ (binExp x - 52)

/-- Bit-accurate model of the percentage the program reports:
`matchScore / totalQuestionsAnswered` rounded to binary64, the product
with 100 rounded to binary64 again, then `Math.round` — nearest integer,
ties toward positive infinity — on the resulting double's exact value
(`round` on these nonnegative values). Faithful for operands below `2^53`,
which covers every count the program can reach. -/
def jsComputePercentage (matchScore totalQuestionsAnswered : Nat) : Int :=
  if 0 < totalQuestionsAnswered then
    round (flDouble (flDouble ((matchScore : ℚ) / (totalQuestionsAnswered : ℚ)) * 100))
  else 0

/-! ## Room repository operations (`roomManager.ts`) -/

/-- Result shape of `joinRoom` (`JoinRoomResult` in `src/types.ts`). -/
inductive JoinRoomResult where
  | success (player : Player) (room : Room)
  | failure (error : String)
deriving DecidableEq, Repr

/-- Observable outcome of `joinRoom`: the returned result and the two store
writes it performs on success (`setex room:<code>` and the reverse-index
`setex playerRoom:<socketId>`); `none` means no write happened. -/
structure JoinOutcome where
  result : JoinRoomResult
  roomWrite : Option Room
  indexWrite : Option (String × String)
deriving DecidableEq, Repr

/-- Model of `joinRoom(roomCode, socketId, playerName, avatar)` from `roomManager.ts`.
`stored` is the result of `redis.get` followed by `parseRoom`:
`none` = key absent, `some none` = present but corrupt, `some (some room)` =
parsed room. Guards run in source order: status first, then capacity. -/
def joinRoom (stored : Option (Option Room))
    (roomCode socketId playerName avatar : String) : JoinOutcome :=
  match stored with
  | none => ⟨.failure "Room not found", none, none⟩
  | some none => ⟨.failure "Room data is corrupted", none, none⟩
  | some (some room) =>
    if room.status ≠ "waiting" then
      ⟨.failure "Game already started", none, none⟩
    else if room.settings.maxPlayers ≤ room.players.length then
      ⟨.failure "Room is full", none, none⟩
    else
      let player : Player :=
        { id := socketId, name := playerName, avatar := avatar,
          isHost := false, hasAnswered := false }
      let room := { room with players := room.players ++ [player] }
      ⟨.success player room, some room, some (socketId, roomCode)⟩

/-- The in-place mutation `players[0].isHost = true`: the first player (the
remaining earliest-joined one) becomes host. -/
def promoteFirst : List Player → List Player
  | [] => []
  | p :: rest => { p with isHost := true } :: rest

/-- The in-room update performed by `removePlayer` (`roomManager.ts` lines
236-244): filter out the leaving socket's player, then, if players remain
and none of them is host, set `players[0].isHost = true`. -/
def removePlayerUpdate (room : Room) (socketId : String) : Room :=
  let players := room.players.filter (fun p => p.id != socketId)
  let players :=
    if 0 < players.length ∧ players.any (fun p => p.isHost) = false then
      promoteFirst players
    else players
  { room with players := players }

/-- Model of `resetRoom`'s in-room update: back to `waiting`, all game-specific
fields cleared, every player's `hasAnswered` flag reset. -/
def resetRoom (room : Room) : Room :=
  { room with
    status := "waiting"
    currentQuestionIndex := 0
    currentRound := none
    completedRounds := []
    matchScore := 0
    totalQuestionsAnswered := 0
    questions := []
    players := room.players.map (fun p => { p with hasAnswered := false }) }

/-- A room store view: `none` = key absent, `some none` = present but fails
`parseRoom`, `some (some room)` = valid record. -/
def RoomStore : Type := String → Option (Option Room)

/-- Model of `getRoom`: both a missing key and a corrupt record surface as
`jsUndefinedined` to the caller. -/
def getRoom (store : RoomStore) (roomCode : String) : Option Room :=
  match store roomCode with
  | none => none
  | some none => none
  | some (some room) => some room

/-! ## Answer canonicalization (`helpers.ts`, `findAnswerObject`) -/

/-- JS `findIndex`: index of the first element satisfying `p`, if any. -/
def jsFindIndex (p : String → Bool) : List String → Option Nat
  | [] => none
  | a :: rest => if p a then some 0 else (jsFindIndex p rest).map (· + 1)

/-- JS `a || b` where `a` is an optionally-present array entry: both a
missing entry (`jsUndefinedined`) and the empty string are falsy and select `b`. -/
def jsOrElse : Option String → String → String
  | none, b => b
  | some a, b => if a = "" then b else a

/-- Model of `findAnswerObject(userAnswer, question)`: search `answers_en`, then
`answers_tr`, then `answers_es`; the first array containing `userAnswer`
determines the index, and the record carries that index's entry in every
locale, with JS `||` falling back to the matched locale's entry. Direct
`array[answerIndex]` reads on the matched array are written `getD i ""`;
the index is always in range there. -/
def findAnswerObject (userAnswer : String) (question : Question) :
    Option MultiLanguageAnswer :=
  match question.haveAnswers, question.answers with
  | false, _ => none
  | true, none => none
  | true, some ch =>
    match jsFindIndex (fun a => a == userAnswer) ch.answers_en with
    | some i =>
      some { en := ch.answers_en.getD i ""
             tr := jsOrElse (ch.answers_tr.get? i) (ch.answers_en.getD i "")
             es := jsOrElse (ch.answers_es.get? i) (ch.answers_en.getD i "") }
    | none =>
      match jsFindIndex (fun a => a == userAnswer) ch.answers_tr with
      | some i =>
        some { en := jsOrElse (ch.answers_en.get? i) (ch.answers_tr.getD i "")
               tr := ch.answers_tr.getD i ""
               es := jsOrElse (ch.answers_es.get? i) (ch.answers_tr.getD i "") }
      | none =>
        match jsFindIndex (fun a => a == userAnswer) ch.answers_es with
        | some i =>
          some { en := jsOrElse (ch.answers_en.get? i) (ch.answers_es.getD i "")
                 tr := jsOrElse (ch.answers_tr.get? i) (ch.answers_es.getD i "")
                 es := ch.answers_es.getD i "" }
        | none => none

/-- The canonicalization step of the submit-answer handler (`index.ts` lines
539-556): for a fixed-answer-set question store the multi-locale record when
`findAnswerObject` finds one, otherwise (warning, not an error) store the
raw string; yes/no questions always store the raw string. -/
def canonicalizeAnswer (question : Question) (answer : String) : AnswerValue :=
  if question.haveAnswers = true ∧ question.answers.isSome = true then
    match findAnswerObject answer question with
    | some obj => .multi obj
    | none => .str answer
  else .str answer

/-- The match evaluation of the submit-answer handler (`index.ts` lines
597-620) on the two collated answer slots: two strings compare by string
equality, two multi-locale records by their English text, anything else
(including a `null` slot, unreachable behind the all-answered guard) is no
match. -/
def computeIsMatched : Option AnswerValue → Option AnswerValue → Bool
  | some (.str s1), some (.str s2) => s1 == s2
  | some (.multi a1), some (.multi a2) => a1.en == a2.en
  | _, _ => false

/-! ## The submit-answer handler (`index.ts` lines 504-831) -/

/-- JS object write `answers[socketId] = value`: an existing key keeps its
position, a new key is appended. -/
def setAnswer : List (String × Option AnswerValue) → String → AnswerValue →
    List (String × Option AnswerValue)
  | [], key, v => [(key, some v)]
  | (k, old) :: rest, key, v =>
    if k = key then (k, some v) :: rest else (k, old) :: setAnswer rest key v

/-- Model of `room.players.find(p => p.id === socket.id)` followed by a mutation of
`hasAnswered`: only the first player with the matching id is changed. -/
def markFirstAnswered : List Player → String → List Player
  | [], _ => []
  | p :: rest, socketId =>
    if p.id = socketId then { p with hasAnswered := true } :: rest
    else p :: markFirstAnswered rest socketId

/-- Observable effects of one submit-answer handler run, in program order.
`emitCriticalToCaller` goes to the acting socket only, `storeWrite` is
`roomManager.updateRoom`, `storeResetRoom` is `roomManager.resetRoom`, and
the two `schedule*Timer` effects are the `setTimeout` calls armed with the
result-display delay. -/
inductive SAEffect where
  | emitCriticalToCaller (code : String)
  | emitPlayerAnsweredToOthers (playerId : String)
  | emitRoundCompleted (isMatched : Bool) (matchScore totalQuestions : Nat)
      (percentage : Int)
  | storeWrite (room : Room)
  | storeResetRoom (roomCode : String)
  | scheduleGameFinishedTimer (delaySeconds : Nat)
  | scheduleNextQuestionTimer (delaySeconds : Nat)
deriving DecidableEq, Repr

/-- The submit-answer handler. `playerRoomLookup` is the result of
`getPlayerRoom(socket.id)`; the room itself comes from `getRoom` on the
store. The body mirrors `index.ts` top to bottom: guards, answer storage,
player flag, first write, completion check, match evaluation, second and
third writes, round-completed broadcast, then either the game-finished path
(fourth write and post-finish timer) or the next-question timer. -/
def submitAnswerHandler (playerRoomLookup : Option String) (store : RoomStore)
    (socketId questionId answer : String) : List SAEffect :=
  match playerRoomLookup with
  | none => [.emitCriticalToCaller "GAME_INACTIVE"]
  | some roomCode =>
    match getRoom store roomCode with
    | none => [.emitCriticalToCaller "NO_ACTIVE_QUESTION"]
    | some room =>
      match room.currentRound with
      | none => [.emitCriticalToCaller "NO_ACTIVE_QUESTION"]
      | some currentRound =>
        if currentRound.question.id ≠ questionId then
          [.emitCriticalToCaller "INVALID_QUESTION_ID"]
        else
          let stored := canonicalizeAnswer currentRound.question answer
          let round1 :=
            { currentRound with answers := setAnswer currentRound.answers socketId stored }
          let room1 :=
            { room with
              currentRound := some round1
              players := markFirstAnswered room.players socketId }
          let base := [SAEffect.storeWrite room1,
                       SAEffect.emitPlayerAnsweredToOthers socketId]
          let vals := round1.answers.map Prod.snd
          if vals.all (fun a => a.isSome) then
            if vals.length ≠ 2 then
              base ++ [.emitCriticalToCaller "INVALID_ANSWER_COUNT",
                       .storeResetRoom roomCode]
            else
              let m := computeIsMatched (vals.getD 0 none) (vals.getD 1 none)
              let round2 := { round1 with isMatched := some m, status := "completed" }
              let room2 :=
                { room1 with
                  currentRound := some round2
                  totalQuestionsAnswered := room1.totalQuestionsAnswered + 1
                  matchScore := room1.matchScore + (if m then 1 else 0) }
              let room3 :=
                { room2 with
                  players := room2.players.map (fun p => { p with hasAnswered := false })
                  completedRounds := room2.completedRounds ++ [round2] }
              let pct := computePercentage room3.matchScore room3.totalQuestionsAnswered
              let base2 :=
                base ++ [SAEffect.storeWrite room2, SAEffect.storeWrite room3,
                         SAEffect.emitRoundCompleted m room3.matchScore
                           room3.totalQuestionsAnswered pct]
              if room3.questions.length - 1 ≤ room3.currentQuestionIndex then
                let room4 := { room3 with status := "finished", currentRound := none }
                base2 ++ [SAEffect.storeWrite room4,
                          SAEffect.scheduleGameFinishedTimer
                            room3.settings.resultDisplayDuration]
              else
                base2 ++ [SAEffect.scheduleNextQuestionTimer
                            room3.settings.resultDisplayDuration]
          else base

/-! ## Deferred timer callbacks (`index.ts` lines 690-724 and 727-829) -/

/-- Observable effects of a fired timer callback. -/
inductive TimerEffect where
  | emitGameFinished (matchScore totalQuestions : Nat) (percentage : Int)
  | emitGameCancelled
  | emitNextQuestion (questionIndex : Nat)
  | storeWrite (room : Room)
  | storeResetRoom (roomCode : String)
deriving DecidableEq, Repr

/-- The post-finish timer body: re-fetch the room; a missing room is a
silent no-op. Otherwise broadcast `game-finished`, then re-fetch once more
(`store2`, the state at the second `getRoom`) and reset the room when it is
still present. -/
def gameFinishedTimerFire (store1 store2 : RoomStore) (roomCode : String) :
    List TimerEffect :=
  match getRoom store1 roomCode with
  | none => []
  | some currentRoom =>
    let pct := computePercentage currentRoom.matchScore currentRoom.totalQuestionsAnswered
    [.emitGameFinished currentRoom.matchScore currentRoom.totalQuestionsAnswered pct] ++
      (match getRoom store2 roomCode with
       | none => []
       | some _ => [.storeResetRoom roomCode])

/-- The next-question timer body: re-fetch the room; a missing room is a
silent no-op. Otherwise cancel on fewer than 2 players, advance the cursor,
defensively finish on index overrun or a missing question record, or start
the next round. The two-player slot construction `{[players[0].id]: null,
[players[1].id]: null}` collapses to one slot when both ids coincide, as a
JS object literal does. -/
def nextQuestionTimerFire (store : RoomStore) (roomCode : String) : List TimerEffect :=
  match getRoom store roomCode with
  | none => []
  | some currentRoom =>
    if currentRoom.players.length < 2 then
      [.emitGameCancelled, .storeResetRoom roomCode]
    else
      let room1 :=
        { currentRoom with currentQuestionIndex := currentRoom.currentQuestionIndex + 1 }
      if room1.questions.length ≤ room1.currentQuestionIndex then
        let room2 := { room1 with status := "finished", currentRound := none }
        [.storeWrite room2,
         .emitGameFinished room2.matchScore room2.totalQuestionsAnswered
           (computePercentage room2.matchScore room2.totalQuestionsAnswered)]
      else
        match room1.questions.get? room1.currentQuestionIndex with
        | none =>
          let room2 := { room1 with status := "finished", currentRound := none }
          [.storeWrite room2, .emitGameCancelled]
        | some nextQuestion =>
          match room1.players with
          | p0 :: p1 :: _ =>
            let slots :=
              if p0.id = p1.id then [(p1.id, (none : Option AnswerValue))]
              else [(p0.id, none), (p1.id, none)]
            let round : QuestionRound :=
              { question := nextQuestion, answers := slots,
                isMatched := none, status := "waiting_answers" }
            let room2 := { room1 with currentRound := some round }
            [.storeWrite room2, .emitNextQuestion room2.currentQuestionIndex]
          | _ => []

/-! ## Structural validation of stored payloads (`roomManager.ts`, `parseRoom`) -/

/-- A post-`JSON.parse` JavaScript value. `jsUndefined` is the result of reading
an absent object field; `JSON.parse` itself never produces it. -/
inductive JsValue where
  | jsUndefined
  | null
  | bool (b : Bool)
  | num (n : Int)
  | str (s : String)
  | arr (elems : List JsValue)
  | obj (fields : List (String × JsValue))

/-- JS truthiness test (`!parsed`, `!parsed.settings`). -/
def jsFalsy : JsValue → Bool
  | .jsUndefined => true
  | .null => true
  | .bool b => !b
  | .num n => n == 0
  | .str s => s == ""
  | .arr _ => false
  | .obj _ => false

/-- Test `typeof v === "object"`: true for `null`, arrays and objects. -/
def jsTypeofObject : JsValue → Bool
  | .null => true
  | .arr _ => true
  | .obj _ => true
  | _ => false

def jsTypeofString : JsValue → Bool
  | .str _ => true
  | _ => false

def jsTypeofNumber : JsValue → Bool
  | .num _ => true
  | _ => false

def jsIsArray : JsValue → Bool
  | .arr _ => true
  | _ => false

/-- Property read `v.key`: `jsUndefinedined` when the field is absent or the
value is not an object (primitives would throw on `null`/`jsUndefinedined`, but
`parseRoom` only dereferences `parsed` after `!parsed` and the `typeof`
check). -/
def jsField (v : JsValue) (key : String) : JsValue :=
  match v with
  | .obj fields =>
    match fields.find? (fun f => f.fst == key) with
    | some f => f.snd
    | none => .jsUndefined
  | _ => .jsUndefined

/-- Model of `parseRoom`'s validation on the parsed value (`roomManager.ts` lines
33-51): reject when the value is falsy or not `typeof "object"`, or when
`roomCode` is not a string, `players` not an array, `settings` falsy or not
an object, `status` not a string, or `createdAt` not a number; otherwise
return the value unchanged as a `Room`. -/
def parseRoom (parsed : JsValue) : Option JsValue :=
  if jsFalsy parsed || !jsTypeofObject parsed ||
     !jsTypeofString (jsField parsed "roomCode") ||
     !jsIsArray (jsField parsed "players") ||
     jsFalsy (jsField parsed "settings") ||
     !jsTypeofObject (jsField parsed "settings") ||
     !jsTypeofString (jsField parsed "status") ||
     !jsTypeofNumber (jsField parsed "createdAt")
  then none
  else some parsed

/-- Model of `getRoom` at the stored-payload level: absent data and a failed
`parseRoom` both yield `jsUndefinedined`; anything `parseRoom` accepts is
returned to the caller as a `Room`. -/
def getRoomFromData (roomData : Option JsValue) : Option JsValue :=
  match roomData with
  | none => none
  | some data => parseRoom data

/-- A concrete stored payload that violates the data model: `status` is an
arbitrary string and `players` contains a number and a string instead of
Player records. -/
def badStoredRoom : JsValue :=
  .obj [("roomCode", .str "ABCD"),
        ("players", .arr [.num 42, .str "ghost"]),
        ("settings", .obj []),
        ("status", .str "haunted"),
        ("createdAt", .num 1700000000000)]

/-! ## Concrete sample data shared by witnesses and counterexamples -/

def samplePlayerA : Player :=
  { id := "sockA", name := "Ali", avatar := "boy_avatar_1",
    isHost := true, hasAnswered := false }

def samplePlayerB : Player :=
  { id := "sockB", name := "Efe", avatar := "girl_avatar_1",
    isHost := false, hasAnswered := true }

def sampleSettings : RoomSettings :=
  { maxPlayers := 2, totalQuestions := 10, category := "just-friends",
    questionDuration := 15, resultDisplayDuration := 5 }

def sampleRoom : Room :=
  { roomCode := "ABCD", createdAt := 1700000000000, status := "waiting",
    players := [samplePlayerA, samplePlayerB], questions := [],
    currentQuestionIndex := 0, currentRound := none, completedRounds := [],
    matchScore := 0, totalQuestionsAnswered := 0, settings := sampleSettings }

/-- Concrete playing room used by the handler witnesses: a yes/no round in
which `sockA` already answered and `sockB` has not. -/
def sampleQuestion : Question :=
  { id := "q1", text_en := "Do you like coffee?", text_tr := "Kahve sever misin?",
    text_es := "Te gusta el cafe?", category := "just-friends",
    haveAnswers := false, answers := none }

def sampleRound : QuestionRound :=
  { question := sampleQuestion,
    answers := [("sockA", some (.str "yes")), ("sockB", none)],
    isMatched := none, status := "waiting_answers" }

def playingRoom : Room :=
  { sampleRoom with
    status := "playing"
    questions := [sampleQuestion]
    currentRound := some sampleRound }

/-! ## Helper lemmas -/

theorem createRoomCodeAux_gen (ex : String → Bool) (rand : Nat → Nat → Fin 35) :
    ∀ fuel attempts code, createRoomCodeAux ex rand attempts fuel = some code →
      ∃ k, code = generateRoomCode (rand k) := by
  intro fuel
  induction fuel with
  | zero => intro attempts code h; simp [createRoomCodeAux] at h
  | succ n ih =>
    intro attempts code h
    simp only [createRoomCodeAux] at h
    split at h
    · exact absurd h (by simp)
    · split at h
      · exact ⟨attempts, by simpa using h.symm⟩
      · exact ih (attempts + 1) code h

theorem jsFindIndex_eq_none {p : String → Bool} {l : List String} :
    jsFindIndex p l = none ↔ ∀ a ∈ l, p a = false := by
  induction l with
  | nil => simp [jsFindIndex]
  | cons a rest ih =>
    by_cases hpa : p a = true
    · simp [jsFindIndex, hpa]
    · have hpa' : p a = false := by
        cases h : p a with
        | true => exact absurd h hpa
        | false => rfl
      simp [jsFindIndex, hpa', ih]

theorem jsFindIndex_found {p : String → Bool} :
    ∀ {l : List String} {i : Nat}, jsFindIndex p l = some i →
      ∃ a, l.get? i = some a ∧ p a = true := by
  intro l
  induction l with
  | nil => intro i h; simp [jsFindIndex] at h
  | cons a rest ih =>
    intro i h
    by_cases hpa : p a = true
    · simp [jsFindIndex, hpa] at h
      exact ⟨a, by simp [← h], hpa⟩
    · have hpa' : p a = false := by
        cases hx : p a with
        | true => exact absurd hx hpa
        | false => rfl
      simp [jsFindIndex, hpa'] at h
      obtain ⟨j, hj, rfl⟩ := h
      obtain ⟨b, hb, hpb⟩ := ih hj
      exact ⟨b, by simpa using hb, hpb⟩

theorem jsFindIndex_beq_getD {ua : String} :
    ∀ {l : List String} {i : Nat}, jsFindIndex (fun a => a == ua) l = some i →
      l[i]?.getD "" = ua := by
  intro l i h
  obtain ⟨a, ha, hpa⟩ := jsFindIndex_found h
  have : a = ua := by simpa using hpa
  subst this
  have ha' : l[i]? = some a := by rwa [← List.get?_eq_getElem?]
  simp [ha']

def countHosts (players : List Player) : Nat :=
  (players.filter (fun p => p.isHost)).length

theorem countHosts_sublist {l₁ l₂ : List Player} (h : List.Sublist l₁ l₂) :
    countHosts l₁ ≤ countHosts l₂ :=
  List.Sublist.length_le (List.Sublist.filter _ h)

theorem hostReassignInvariant (ps : List Player) (hle : countHosts ps ≤ 1)
    (hne : ps ≠ []) :
    countHosts
      (if 0 < ps.length ∧ ps.any (fun p => p.isHost) = false then
        promoteFirst ps
      else ps) = 1 := by
  by_cases hany : ps.any (fun p => p.isHost) = true
  · rw [if_neg (by simp [hany])]
    obtain ⟨x, hx, hpx⟩ := List.any_eq_true.mp hany
    have h1 : 1 ≤ countHosts ps := by
      have hmem : x ∈ ps.filter (fun p => p.isHost) := List.mem_filter.mpr ⟨hx, hpx⟩
      exact List.length_pos.mpr (List.ne_nil_of_mem hmem)
    omega
  · have hany' : ps.any (fun p => p.isHost) = false := by
      cases h : ps.any (fun p => p.isHost) with
      | true => exact absurd h hany
      | false => rfl
    rw [if_pos ⟨List.length_pos.mpr hne, hany'⟩]
    cases ps with
    | nil => exact absurd rfl hne
    | cons p rest =>
      have hall := List.any_eq_false.mp hany'
      have hrest : (rest.filter (fun p => p.isHost)).length = 0 := by
        rw [List.length_eq_zero, List.filter_eq_nil_iff]
        exact fun a ha => hall a (List.mem_cons_of_mem _ ha)
      simp [countHosts, promoteFirst, List.filter_cons, hrest]

/-! ## C1 — room-code length and alphabet -/

/-- C1 counterexample: the claim calls the alphabet 36-symbol, but the
restricted alphabet `generateRoomCode` draws from — the uppercase letters
`A`-`Z` together with the digits `1`-`9` — contains exactly 35 distinct
symbols (26 letters + 9 digits), so no 4-character code can use a 36th
symbol. -/
theorem room_code_alphabet_size_counterexample :
    roomCodeChars.Nodup ∧ roomCodeChars.length = 35 ∧ roomCodeChars.length ≠ 36 ∧
    generateRoomCode (fun _ => 0) = "AAAA" := by decide

/-- C1 (amended): every code `generateRoomCode` produces has length exactly
4 and draws each character from the 35-symbol alphabet `A`-`Z` ∪ `1`-`9`;
moreover every code `createRoom` assigns is one of `generateRoomCode`'s
outputs, hence has the same shape. -/
theorem room_code_length_and_alphabet (rand : Nat → Fin 35) :
    (generateRoomCode rand).length = 4 ∧
    (∀ c ∈ (generateRoomCode rand).toList, c ∈ roomCodeChars) ∧
    roomCodeChars.length = 35 ∧ roomCodeChars.Nodup ∧
    (∀ c ∈ roomCodeChars, ('A' ≤ c ∧ c ≤ 'Z') ∨ ('1' ≤ c ∧ c ≤ '9')) ∧
    (∀ ex rand2 code, createRoomCode ex rand2 = some code →
      ∃ k, code = generateRoomCode (rand2 k)) := by
  refine ⟨rfl, ?_, by decide, by decide, by decide, ?_⟩
  · intro c hc
    have hc' : c ∈ (List.range 4).map
        (fun i => roomCodeChars.get (Fin.cast roomCodeChars_len.symm (rand i))) := hc
    obtain ⟨i, _, rfl⟩ := List.mem_map.mp hc'
    exact List.get_mem _ _ _
  · intro ex rand2 code h
    exact createRoomCodeAux_gen ex rand2 maxAttempts 0 code h

/-- C1 witness: the amended theorem applied at the all-zero random stream,
the character `'A'`, and a collision-free existence check. -/
theorem room_code_length_and_alphabet_witness :
    (generateRoomCode (fun _ => (0 : Fin 35))).length = 4 ∧
    'A' ∈ roomCodeChars ∧
    (('A' ≤ 'A' ∧ 'A' ≤ 'Z') ∨ ('1' ≤ 'A' ∧ 'A' ≤ '9')) ∧
    (∃ _k : Nat, "AAAA" = generateRoomCode (fun _ => (0 : Fin 35))) := by
  have h := room_code_length_and_alphabet (fun _ => (0 : Fin 35))
  refine ⟨h.1, ?_, ?_, ?_⟩
  · exact h.2.1 'A' (by decide)
  · exact h.2.2.2.2.1 'A' (by decide)
  · exact h.2.2.2.2.2 (fun _ => false) (fun _ _ => (0 : Fin 35)) "AAAA" (by decide)

/-! ## C3 — percentage: double rounding versus exact rounding -/

theorem roundHalfEven_nonneg {y : ℚ} (h : 0 ≤ y) : 0 ≤ roundHalfEven y := by
  have hf : 0 ≤ ⌊y⌋ := Int.floor_nonneg.mpr h
  simp only [roundHalfEven]
  split_ifs <;> omega

theorem roundHalfEven_le_add_half (y : ℚ) : (roundHalfEven y : ℚ) ≤ y + 1 / 2 := by
  have h1 : (⌊y⌋ : ℚ) ≤ y := Int.floor_le y
  simp only [roundHalfEven]
  split_ifs with h2 h3 h4
  · linarith
  · push_cast
    linarith
  · linarith
  · have h2' := not_lt.mp h2
    push_cast
    linarith

theorem binExpUp_le (fuel : Nat) : ∀ (x : ℚ) (e : ℤ), binExpUp fuel x e ≤ e := by
  induction fuel with
  | zero =>
    intro x e
    simp [binExpUp]
  | succ n ih =>
    intro x e
    simp only [binExpUp]
    split_ifs
    · exact le_refl e
    · exact le_trans (ih _ _) (by omega)

theorem binExpDown_le (fuel : Nat) : ∀ (x : ℚ) (e : ℤ) (k : Nat),
    x < 2 ^ (k + 1) → binExpDown fuel x e ≤ e + k := by
  induction fuel with
  | zero =>
    intro x e k _
    simp only [binExpDown]
    omega
  | succ n ih =>
    intro x e k hx
    simp only [binExpDown]
    split_ifs with h2
    · omega
    · match k with
      | 0 =>
        exfalso
        push_neg at h2
        norm_num at hx
        linarith
      | k' + 1 =>
        have hx' : x / 2 < 2 ^ (k' + 1) := by
          rw [div_lt_iff₀ (by norm_num : (0:ℚ) < 2)]
          calc x < 2 ^ (k' + 1 + 1) := hx
            _ = 2 ^ (k' + 1) * 2 := by ring
        have hrec := ih (x / 2) (e + 1) k' hx'
        omega

theorem binExp_nonpos_of_le_one {x : ℚ} (hx : x ≤ 1) : binExp x ≤ 0 := by
  unfold binExp
  split_ifs with h1
  · have hlt : x < 2 ^ (0 + 1) := by
      have hx1 : x = 1 := le_antisymm hx h1
      rw [hx1]
      norm_num
    have := binExpDown_le 2200 x 0 0 hlt
    omega
  · have := binExpUp_le 2200 x 0
    omega

theorem binExp_le_of_lt {x : ℚ} (k : Nat) (hx : x < 2 ^ (k + 1)) : binExp x ≤ k := by
  unfold binExp
  split_ifs with h1
  · have := binExpDown_le 2200 x 0 k hx
    omega
  · have := binExpUp_le 2200 x 0
    omega

theorem flDouble_nonneg (x : ℚ) : 0 ≤ flDouble x := by
  unfold flDouble
  split_ifs with h
  · exact le_refl 0
  · push_neg at h
    have hu : (0:ℚ) < 2 ^ (binExp x - 52) := by positivity
    have hz : 0 ≤ x / 2 ^ (binExp x - 52) := by positivity
    have h1 : (0:ℚ) ≤ (roundHalfEven (x / 2 ^ (binExp x - 52)) : ℚ) := by
      exact_mod_cast roundHalfEven_nonneg hz
    exact mul_nonneg h1 (le_of_lt hu)

theorem flDouble_le_add {x : ℚ} (hx : 0 < x) :
    flDouble x ≤ x + 2 ^ (binExp x - 52) / 2 := by
  unfold flDouble
  rw [if_neg (not_le.mpr hx)]
  have hu : (0:ℚ) < 2 ^ (binExp x - 52) := by positivity
  have h1 := roundHalfEven_le_add_half (x / 2 ^ (binExp x - 52))
  calc (roundHalfEven (x / 2 ^ (binExp x - 52)) : ℚ) * 2 ^ (binExp x - 52)
      ≤ (x / 2 ^ (binExp x - 52) + 1 / 2) * 2 ^ (binExp x - 52) :=
        mul_le_mul_of_nonneg_right h1 (le_of_lt hu)
    _ = x + 2 ^ (binExp x - 52) / 2 := by
        field_simp
        ring

set_option maxRecDepth 10000 in
/-- C3 counterexample: at `matchScore = 23`, `totalQuestionsAnswered = 40`
(inside the claim's domain `0 ≤ m ≤ t`), the program's double-precision
pipeline computes `(23/40)*100 = 57.49999999999999289…` and reports 57,
while `round(23/40*100) = round(57.5) = 58` — so "the reported percentage
equals round(matchScore / totalQuestionsAnswered * 100)" is false of the
program as universally stated. -/
theorem percentage_double_rounding_counterexample :
    jsComputePercentage 23 40 = 57 ∧
    computePercentage 23 40 = 58 ∧
    round ((23 : ℚ) / (40 : ℚ) * 100) = 58 ∧
    jsComputePercentage 23 40 ≠ round ((23 : ℚ) / (40 : ℚ) * 100) := by
  with_unfolding_all decide

set_option maxRecDepth 100000 in
/-- C3 (amended): for every room state with
`0 ≤ matchScore ≤ totalQuestionsAnswered ≤ 10` — all states reachable with
the fixed `totalQuestions = 10` setting — the reported percentage equals
`round(matchScore / totalQuestionsAnswered * 100)` exactly, and is 0 when
the denominator is 0 (no division by zero); and for every
`matchScore ≤ totalQuestionsAnswered` whatsoever the reported
double-precision percentage still lies in `[0, 100]`. Beyond 10 answered
questions the double computation may differ from exact rounding by one
(57 instead of 58 at 23/40). -/
theorem percentage_exact_rounding_within_game (matchScore total : Nat)
    (hmt : matchScore ≤ total) (ht10 : total ≤ 10) :
    jsComputePercentage matchScore total = computePercentage matchScore total ∧
    (0 < total → computePercentage matchScore total =
      round ((matchScore : ℚ) / (total : ℚ) * 100)) ∧
    jsComputePercentage matchScore 0 = 0 ∧
    (∀ m t : Nat, m ≤ t →
      0 ≤ jsComputePercentage m t ∧ jsComputePercentage m t ≤ 100) := by
  refine ⟨?_, fun htp => by simp [computePercentage, htp], rfl, ?_⟩
  · have key : ∀ t : Nat, t < 11 → ∀ m : Nat, m < t + 1 →
        jsComputePercentage m t = computePercentage m t := by
      with_unfolding_all decide
    exact key total (by omega) matchScore (by omega)
  · intro m t hle
    by_cases ht : 0 < t
    · simp only [jsComputePercentage, if_pos ht]
      have hx0 : (0:ℚ) ≤ (m : ℚ) / (t : ℚ) := by positivity
      have hx1 : (m : ℚ) / (t : ℚ) ≤ 1 := by
        rw [div_le_one (by exact_mod_cast ht)]
        exact_mod_cast hle
      have hc52 : (2:ℚ) ^ (-52 : ℤ) = 1 / 4503599627370496 := by norm_num
      have hc46 : (2:ℚ) ^ ((6:ℤ) - 52) = 1 / 70368744177664 := by norm_num
      have hfl1_0 : 0 ≤ flDouble ((m : ℚ) / (t : ℚ)) := flDouble_nonneg _
      have hfl1_1 : flDouble ((m : ℚ) / (t : ℚ)) ≤ 1 + 1 / 4503599627370496 / 2 := by
        by_cases hxz : (m : ℚ) / (t : ℚ) ≤ 0
        · rw [flDouble, if_pos hxz]
          norm_num
        · push_neg at hxz
          have hb := binExp_nonpos_of_le_one hx1
          have hu : (2:ℚ) ^ (binExp ((m : ℚ) / (t : ℚ)) - 52) ≤ 2 ^ (-52 : ℤ) :=
            zpow_le_zpow_right₀ one_le_two (by omega)
          have hfl := flDouble_le_add hxz
          rw [hc52] at hu
          linarith
      have hy0 : 0 ≤ flDouble ((m : ℚ) / (t : ℚ)) * 100 :=
        mul_nonneg hfl1_0 (by norm_num)
      have hy1 : flDouble ((m : ℚ) / (t : ℚ)) * 100 ≤
          100 + 100 / 4503599627370496 / 2 := by linarith
      have hfl2_0 : 0 ≤ flDouble (flDouble ((m : ℚ) / (t : ℚ)) * 100) :=
        flDouble_nonneg _
      have hfl2_1 : flDouble (flDouble ((m : ℚ) / (t : ℚ)) * 100) ≤
          100 + 100 / 4503599627370496 / 2 + 1 / 70368744177664 / 2 := by
        by_cases hyz : flDouble ((m : ℚ) / (t : ℚ)) * 100 ≤ 0
        · rw [flDouble, if_pos hyz]
          norm_num
        · push_neg at hyz
          have hy128 : flDouble ((m : ℚ) / (t : ℚ)) * 100 < 2 ^ (6 + 1) := by
            norm_num
            linarith
          have hb2 := binExp_le_of_lt 6 hy128
          have hu2 : (2:ℚ) ^ (binExp (flDouble ((m : ℚ) / (t : ℚ)) * 100) - 52) ≤
              2 ^ ((6:ℤ) - 52) :=
            zpow_le_zpow_right₀ one_le_two (by omega)
          have hfl := flDouble_le_add hyz
          rw [hc46] at hu2
          linarith
      constructor
      · rw [round_eq]
        exact Int.floor_nonneg.mpr (by linarith)
      · rw [round_eq]
        have hlt : flDouble (flDouble ((m : ℚ) / (t : ℚ)) * 100) + 1 / 2 <
            ((101 : ℤ) : ℚ) := by
          push_cast
          linarith
        have := Int.floor_lt.mpr hlt
        omega
    · simp [jsComputePercentage, ht]

/-- C3 witness: the amended theorem applied at 1 of 2 inside the game
domain and, for the bounds, at the divergent point 23 of 40. -/
theorem percentage_exact_rounding_within_game_witness :
    jsComputePercentage 1 2 = computePercentage 1 2 ∧
    jsComputePercentage 1 0 = 0 ∧
    0 ≤ jsComputePercentage 23 40 ∧ jsComputePercentage 23 40 ≤ 100 := by
  have h := percentage_exact_rounding_within_game 1 2 (by decide) (by decide)
  exact ⟨h.1, h.2.2.1, (h.2.2.2 23 40 (by decide)).1, (h.2.2.2 23 40 (by decide)).2⟩

/-! ## C4 — resetRoom clears game state and preserves identity -/

/-- C4: `resetRoom` writes back a room whose game-specific fields are all
cleared and every player's `hasAnswered` is false, while `roomCode`,
`createdAt`, `settings` and each player's identity fields (`id`, `name`,
`avatar`, `isHost`) are unchanged, in the original order. -/
theorem reset_room_clears_and_preserves (room : Room) :
    (resetRoom room).status = "waiting" ∧
    (resetRoom room).questions = [] ∧
    (resetRoom room).currentRound = none ∧
    (resetRoom room).completedRounds = [] ∧
    (resetRoom room).matchScore = 0 ∧
    (resetRoom room).totalQuestionsAnswered = 0 ∧
    (resetRoom room).currentQuestionIndex = 0 ∧
    (∀ p ∈ (resetRoom room).players, p.hasAnswered = false) ∧
    (resetRoom room).roomCode = room.roomCode ∧
    (resetRoom room).createdAt = room.createdAt ∧
    (resetRoom room).settings = room.settings ∧
    (resetRoom room).players.map (fun p => (p.id, p.name, p.avatar, p.isHost)) =
      room.players.map (fun p => (p.id, p.name, p.avatar, p.isHost)) := by
  refine ⟨rfl, rfl, rfl, rfl, rfl, rfl, rfl, ?_, rfl, rfl, rfl, ?_⟩
  · intro p hp
    have hp' : p ∈ room.players.map (fun q => { q with hasAnswered := false }) := hp
    obtain ⟨q, _, rfl⟩ := List.mem_map.mp hp'
    rfl
  · show (room.players.map (fun q => { q with hasAnswered := false })).map _ = _
    rw [List.map_map]
    rfl

/-- C4 witness: the theorem applied to the concrete sample room, read off
at its second player (who had answered). -/
theorem reset_room_clears_and_preserves_witness :
    (resetRoom sampleRoom).status = "waiting" ∧
    { samplePlayerB with hasAnswered := false } ∈ (resetRoom sampleRoom).players ∧
    ({ samplePlayerB with hasAnswered := false } : Player).hasAnswered = false ∧
    (resetRoom sampleRoom).settings = sampleRoom.settings := by
  have h := reset_room_clears_and_preserves sampleRoom
  exact ⟨h.1, by decide, h.2.2.2.2.2.2.2.1 _ (by decide), h.2.2.2.2.2.2.2.2.2.2.1⟩

/-! ## C2 — joinRoom guards (status checked before capacity) -/

/-- A full room whose game is in progress. -/
def fullPlayingRoom : Room := { sampleRoom with status := "playing" }

/-- C2 counterexample: on a room that is both full (2/2) and `playing`,
`joinRoom` fails with the already-started error, not the room-full error,
because the status guard runs first — so "joinRoom on a full room always
fails with the room-full error" is false as stated. -/
theorem join_full_room_counterexample :
    fullPlayingRoom.players.length = 2 ∧
    fullPlayingRoom.settings.maxPlayers = 2 ∧
    fullPlayingRoom.status = "playing" ∧
    (joinRoom (some (some fullPlayingRoom)) "ABCD" "sockC" "Can" "x").result =
      .failure "Game already started" ∧
    (joinRoom (some (some fullPlayingRoom)) "ABCD" "sockC" "Can" "x").result ≠
      .failure "Room is full" := by decide

/-- C2 (amended): `joinRoom` on a full `waiting` room always fails with the
room-full error; on a `playing` room it always fails with the
already-started error; every failure performs no store write (so no player
is appended); and with `maxPlayers = 2` any room it writes back has at most
2 players. -/
theorem join_room_guards (room : Room) (rc sid pn av : String) :
    (room.status = "waiting" → room.settings.maxPlayers ≤ room.players.length →
      joinRoom (some (some room)) rc sid pn av =
        ⟨.failure "Room is full", none, none⟩) ∧
    (room.status = "playing" →
      joinRoom (some (some room)) rc sid pn av =
        ⟨.failure "Game already started", none, none⟩) ∧
    (∀ err, (joinRoom (some (some room)) rc sid pn av).result = .failure err →
      (joinRoom (some (some room)) rc sid pn av).roomWrite = none ∧
      (joinRoom (some (some room)) rc sid pn av).indexWrite = none) ∧
    (room.settings.maxPlayers = 2 →
      ∀ r, (joinRoom (some (some room)) rc sid pn av).roomWrite = some r →
        r.players.length ≤ 2) := by
  refine ⟨?_, ?_, ?_, ?_⟩
  · intro hw hfull
    simp [joinRoom, hw, hfull]
  · intro hp
    have hne : room.status ≠ "waiting" := by simp [hp]
    simp [joinRoom, hne]
  · intro err herr
    by_cases hw : room.status = "waiting"
    · by_cases hfull : room.settings.maxPlayers ≤ room.players.length
      · simp [joinRoom, hw, hfull]
      · simp [joinRoom, hw, hfull] at herr
    · simp [joinRoom, hw]
  · intro hmax r hr
    by_cases hw : room.status = "waiting"
    · by_cases hfull : room.settings.maxPlayers ≤ room.players.length
      · simp [joinRoom, hw, hfull] at hr
      · have hlt : room.players.length < 2 := by omega
        simp only [joinRoom, hw] at hr
        rw [if_neg (by simp), if_neg (by simpa using hfull)] at hr
        have h2 : r = { room with
            status := "waiting"
            players := room.players ++
              [{ id := sid, name := pn, avatar := av,
                 isHost := false, hasAnswered := false }] } := by
          simpa using hr.symm
        rw [h2]
        simp
        omega
    · simp [joinRoom, hw] at hr

/-- C2 witness: the amended theorem applied to a full waiting room and to a
playing room. -/
theorem join_room_guards_witness :
    joinRoom (some (some sampleRoom)) "ABCD" "sockC" "Can" "x" =
      ⟨.failure "Room is full", none, none⟩ ∧
    joinRoom (some (some fullPlayingRoom)) "ABCD" "sockC" "Can" "x" =
      ⟨.failure "Game already started", none, none⟩ := by
  refine ⟨?_, ?_⟩
  · exact (join_room_guards sampleRoom "ABCD" "sockC" "Can" "x").1 (by decide) (by decide)
  · exact (join_room_guards fullPlayingRoom "ABCD" "sockC" "Can" "x").2.1 (by decide)

/-! ## C8 — removePlayer preserves the one-host invariant -/

/-- C8: if exactly one player is host, then after `removePlayer`'s update
the remaining list, when non-empty, again has exactly one host; removing
the host of a 2-player room promotes the remaining player. -/
theorem remove_player_keeps_one_host (room : Room) (sid : String)
    (h1 : countHosts room.players = 1) :
    ((removePlayerUpdate room sid).players ≠ [] →
      countHosts (removePlayerUpdate room sid).players = 1) ∧
    (∀ a b, room.players = [a, b] → a.isHost = true → b.isHost = false →
      a.id = sid → b.id ≠ sid →
      (removePlayerUpdate room sid).players = [{ b with isHost := true }]) := by
  constructor
  · intro hne
    have hle : countHosts (room.players.filter (fun p => p.id != sid)) ≤ 1 := by
      calc countHosts (room.players.filter (fun p => p.id != sid))
          ≤ countHosts room.players := countHosts_sublist (List.filter_sublist _)
        _ = 1 := h1
    have hps : (removePlayerUpdate room sid).players =
        (if 0 < (room.players.filter (fun p => p.id != sid)).length ∧
            (room.players.filter (fun p => p.id != sid)).any (fun p => p.isHost) = false
         then promoteFirst (room.players.filter (fun p => p.id != sid))
         else room.players.filter (fun p => p.id != sid)) := rfl
    rw [hps] at hne ⊢
    by_cases hempty : room.players.filter (fun p => p.id != sid) = []
    · rw [hempty] at hne
      simp [promoteFirst] at hne
    · exact hostReassignInvariant _ hle hempty
  · intro a b hab ha hb haid hbid
    have hps : (removePlayerUpdate room sid).players =
        (if 0 < (room.players.filter (fun p => p.id != sid)).length ∧
            (room.players.filter (fun p => p.id != sid)).any (fun p => p.isHost) = false
         then promoteFirst (room.players.filter (fun p => p.id != sid))
         else room.players.filter (fun p => p.id != sid)) := rfl
    rw [hps]
    have hfa : (a.id != sid) = false := by simp [haid]
    have hfb : (b.id != sid) = true := by simp [hbid]
    have hfilter : room.players.filter (fun p => p.id != sid) = [b] := by
      rw [hab]
      simp [List.filter_cons, hfa, hfb]
    rw [hfilter, if_pos (by simp [hb])]
    rfl

/-- C8 witness: the theorem applied to the sample room (host `sockA`,
non-host `sockB`): removing the host leaves exactly `sockB`, promoted. -/
theorem remove_player_keeps_one_host_witness :
    (removePlayerUpdate sampleRoom "sockA").players =
      [{ samplePlayerB with isHost := true }] ∧
    countHosts (removePlayerUpdate sampleRoom "sockA").players = 1 := by
  have h := remove_player_keeps_one_host sampleRoom "sockA" (by decide)
  refine ⟨h.2 samplePlayerA samplePlayerB rfl rfl rfl rfl (by decide), ?_⟩
  exact h.1 (by decide)

/-- Every room the submit-answer handler writes either leaves
`completedRounds` untouched or appends exactly one round: a completed one
with two collated answers whose stored `isMatched` is the match rule
applied to those two answers. -/
theorem submitAnswerHandler_writes (rc : String) (store : RoomStore)
    (room : Room) (cr : QuestionRound) (sid qid ans : String)
    (hstore : store rc = some (some room)) (hcr : room.currentRound = some cr)
    (r : Room)
    (hmem : SAEffect.storeWrite r ∈ submitAnswerHandler (some rc) store sid qid ans) :
    r.completedRounds = room.completedRounds ∨
    (∃ rd, r.completedRounds = room.completedRounds ++ [rd] ∧
      rd.status = "completed" ∧
      (rd.answers.map Prod.snd).length = 2 ∧
      (rd.answers.map Prod.snd).all (fun a => a.isSome) = true ∧
      rd.isMatched = some (computeIsMatched ((rd.answers.map Prod.snd).getD 0 none)
                                            ((rd.answers.map Prod.snd).getD 1 none))) := by
  simp only [submitAnswerHandler, getRoom, hstore, hcr] at hmem
  by_cases hid : cr.question.id ≠ qid
  · rw [if_pos hid] at hmem
    simp at hmem
  · rw [if_neg hid] at hmem
    split at hmem
    next hall =>
      split at hmem
      next hlen =>
        -- anomalous answer count: only the first write occurs
        simp only [List.mem_append, List.mem_cons, List.not_mem_nil, or_false,
          false_or, or_assoc, SAEffect.storeWrite.injEq, reduceCtorEq] at hmem
        rcases hmem with rfl
        exact Or.inl rfl
      next hlen =>
        split at hmem
        next hfin =>
          -- game finished: writes are room1, room2, room3, room4
          simp only [List.mem_append, List.mem_cons, List.not_mem_nil, or_false,
            false_or, or_assoc, SAEffect.storeWrite.injEq, reduceCtorEq] at hmem
          rcases hmem with rfl | rfl | rfl | rfl
          · exact Or.inl rfl
          · exact Or.inl rfl
          · refine Or.inr ⟨_, rfl, rfl, ?_, ?_, rfl⟩
            · show ((setAnswer cr.answers sid
                (canonicalizeAnswer cr.question ans)).map Prod.snd).length = 2
              omega
            · exact hall
          · refine Or.inr ⟨_, rfl, rfl, ?_, ?_, rfl⟩
            · show ((setAnswer cr.answers sid
                (canonicalizeAnswer cr.question ans)).map Prod.snd).length = 2
              omega
            · exact hall
        next hfin =>
          -- next question scheduled: writes are room1, room2, room3
          simp only [List.mem_append, List.mem_cons, List.not_mem_nil, or_false,
            false_or, or_assoc, SAEffect.storeWrite.injEq, reduceCtorEq] at hmem
          rcases hmem with rfl | rfl | rfl
          · exact Or.inl rfl
          · exact Or.inl rfl
          · refine Or.inr ⟨_, rfl, rfl, ?_, ?_, rfl⟩
            · show ((setAnswer cr.answers sid
                (canonicalizeAnswer cr.question ans)).map Prod.snd).length = 2
              omega
            · exact hall
    next hall =>
      -- round not complete: only the first write occurs
      simp only [List.mem_append, List.mem_cons, List.not_mem_nil, or_false,
        false_or, or_assoc, SAEffect.storeWrite.injEq, reduceCtorEq] at hmem
      rcases hmem with rfl
      exact Or.inl rfl

/-! ## C5 — match rule and stored-round coherence -/

/-- C5: the equality rule — two raw strings match exactly when the strings
are equal, two canonicalized records exactly when their English texts are
equal, and a raw string never matches a canonicalized record — and every
round the submit-answer handler appends to `completedRounds` stores an
`isMatched` equal to that rule applied to its own two stored answers. -/
theorem match_rule_and_stored_coherence (rc : String) (store : RoomStore)
    (room : Room) (cr : QuestionRound) (sid qid ans : String)
    (hstore : store rc = some (some room))
    (hcr : room.currentRound = some cr) :
    (∀ s1 s2, computeIsMatched (some (.str s1)) (some (.str s2)) = true ↔ s1 = s2) ∧
    (∀ m1 m2, computeIsMatched (some (.multi m1)) (some (.multi m2)) = true ↔
      m1.en = m2.en) ∧
    (∀ s m, computeIsMatched (some (.str s)) (some (.multi m)) = false ∧
            computeIsMatched (some (.multi m)) (some (.str s)) = false) ∧
    (∀ r rd, SAEffect.storeWrite r ∈ submitAnswerHandler (some rc) store sid qid ans →
      r.completedRounds = room.completedRounds ++ [rd] →
      rd.status = "completed" ∧
      (rd.answers.map Prod.snd).length = 2 ∧
      rd.isMatched = some (computeIsMatched ((rd.answers.map Prod.snd).getD 0 none)
                                            ((rd.answers.map Prod.snd).getD 1 none))) := by
  refine ⟨?_, ?_, ?_, ?_⟩
  · intro s1 s2
    simp [computeIsMatched]
  · intro m1 m2
    simp [computeIsMatched]
  · intro s m
    exact ⟨rfl, rfl⟩
  · intro r rd hmem happ
    rcases submitAnswerHandler_writes rc store room cr sid qid ans hstore hcr r hmem with
      hsame | ⟨rd2, happend, hstatus, hlen, _, hmatch⟩
    · rw [hsame] at happ
      have hcontra := congrArg List.length happ
      simp at hcontra
    · rw [happend] at happ
      have h2 : rd2 = rd := by
        have h3 := List.append_cancel_left happ
        simpa using h3
      rw [h2] at hstatus hlen hmatch
      exact ⟨hstatus, hlen, hmatch⟩

/-- C5 witness: the theorem applied to the concrete playing room; the rule
evaluated on concrete answers. -/
theorem match_rule_and_stored_coherence_witness :
    computeIsMatched (some (.str "yes")) (some (.str "yes")) = true ∧
    computeIsMatched (some (.str "yes"))
      (some (.multi { en := "yes", tr := "evet", es := "si" })) = false := by
  have h := match_rule_and_stored_coherence "ABCD" (fun _ => some (some playingRoom))
    playingRoom sampleRound "sockB" "q1" "yes" rfl rfl
  exact ⟨(h.1 "yes" "yes").mpr rfl,
    (h.2.2.1 "yes" { en := "yes", tr := "evet", es := "si" }).1⟩

/-! ## C6 — canonicalization precedence and fallback -/

/-- C6 counterexample data: the Turkish choice array holds the empty string
at the matched index. -/
def emptyTrChoices : AnswerChoices :=
  { answers_en := ["Beach"], answers_tr := [""], answers_es := ["Playa"] }

def emptyTrQuestion : Question :=
  { id := "q2", text_en := "Beach or mountains?", text_tr := "?", text_es := "?",
    category := "we_just_met", haveAnswers := true, answers := some emptyTrChoices }

/-- C6 counterexample: for `userAnswer = "Beach"` the English array matches
at index 0; the Turkish entry at index 0 is present (`some ""`), not
missing, yet the stored record carries `"Beach"` — the matched locale's
text — in its Turkish slot instead of that present index-0 choice, because
JS `||` also treats the empty string as falsy. -/
theorem canonicalization_empty_entry_counterexample :
    findAnswerObject "Beach" emptyTrQuestion =
      some { en := "Beach", tr := "Beach", es := "Playa" } ∧
    emptyTrChoices.answers_tr.get? 0 = some "" ∧
    emptyTrChoices.answers_en.get? 0 = some "Beach" ∧
    (∀ m, findAnswerObject "Beach" emptyTrQuestion = some m → m.tr ≠ "") := by
  refine ⟨by decide, by decide, by decide, ?_⟩
  intro m hm
  have : m = { en := "Beach", tr := "Beach", es := "Playa" } := by
    have h0 : findAnswerObject "Beach" emptyTrQuestion =
        some { en := "Beach", tr := "Beach", es := "Playa" } := by decide
    rw [h0] at hm
    exact (Option.some.inj hm).symm
  rw [this]
  decide

/-- C6 (amended): locale arrays are searched in the order English, Turkish,
Spanish; the first array containing the raw answer at index `i` wins, and
the record carries the raw answer in the matched locale and the index-`i`
entry of each other locale, except that an entry that is missing or empty
(JS-falsy) falls back to the matched locale's text; when no array contains
the raw answer, `findAnswerObject` returns `none` and the handler stores
the raw string unchanged. -/
theorem canonicalization_precedence (ua : String) (q : Question) (ch : AnswerChoices)
    (hq : q.haveAnswers = true) (ha : q.answers = some ch) :
    (∀ i, jsFindIndex (fun a => a == ua) ch.answers_en = some i →
      findAnswerObject ua q =
        some { en := ua, tr := jsOrElse (ch.answers_tr.get? i) ua,
               es := jsOrElse (ch.answers_es.get? i) ua }) ∧
    (jsFindIndex (fun a => a == ua) ch.answers_en = none →
      ∀ i, jsFindIndex (fun a => a == ua) ch.answers_tr = some i →
      findAnswerObject ua q =
        some { en := jsOrElse (ch.answers_en.get? i) ua, tr := ua,
               es := jsOrElse (ch.answers_es.get? i) ua }) ∧
    (jsFindIndex (fun a => a == ua) ch.answers_en = none →
      jsFindIndex (fun a => a == ua) ch.answers_tr = none →
      ∀ i, jsFindIndex (fun a => a == ua) ch.answers_es = some i →
      findAnswerObject ua q =
        some { en := jsOrElse (ch.answers_en.get? i) ua,
               tr := jsOrElse (ch.answers_tr.get? i) ua, es := ua }) ∧
    (ua ∉ ch.answers_en → ua ∉ ch.answers_tr → ua ∉ ch.answers_es →
      findAnswerObject ua q = none ∧ canonicalizeAnswer q ua = .str ua) := by
  refine ⟨?_, ?_, ?_, ?_⟩
  · intro i hi
    have hua := jsFindIndex_beq_getD hi
    simp [findAnswerObject, hq, ha, hi, hua]
  · intro hen i hi
    have hua := jsFindIndex_beq_getD hi
    simp [findAnswerObject, hq, ha, hen, hi, hua]
  · intro hen htr i hi
    have hua := jsFindIndex_beq_getD hi
    simp [findAnswerObject, hq, ha, hen, htr, hi, hua]
  · intro h1 h2 h3
    have hnone : ∀ l : List String, ua ∉ l →
        jsFindIndex (fun a => a == ua) l = none := by
      intro l hl
      refine jsFindIndex_eq_none.mpr (fun a hal => ?_)
      cases hbeq : a == ua with
      | false => rfl
      | true => exact absurd (eq_of_beq hbeq ▸ hal) hl
    have hen := hnone _ h1
    have htr := hnone _ h2
    have hes := hnone _ h3
    have hfind : findAnswerObject ua q = none := by
      simp [findAnswerObject, hq, ha, hen, htr, hes]
    refine ⟨hfind, ?_⟩
    simp [canonicalizeAnswer, hq, ha, hfind]

/-- C6 witness: the amended theorem applied to a concrete two-choice
question, matching in English and, separately, matching nothing. -/
theorem canonicalization_precedence_witness :
    findAnswerObject "Beach" emptyTrQuestion =
      some { en := "Beach", tr := jsOrElse (emptyTrChoices.answers_tr.get? 0) "Beach",
             es := jsOrElse (emptyTrChoices.answers_es.get? 0) "Beach" } ∧
    findAnswerObject "Lake" emptyTrQuestion = none ∧
    canonicalizeAnswer emptyTrQuestion "Lake" = .str "Lake" := by
  have h := canonicalization_precedence "Beach" emptyTrQuestion emptyTrChoices rfl rfl
  have h2 := canonicalization_precedence "Lake" emptyTrQuestion emptyTrChoices rfl rfl
  refine ⟨h.1 0 (by decide), ?_, ?_⟩
  · exact (h2.2.2.2 (by decide) (by decide) (by decide)).1
  · exact (h2.2.2.2 (by decide) (by decide) (by decide)).2

/-! ## C7 — mismatched question id is rejected without mutation -/

/-- C7: when the submitted `questionId` differs from the active round's
question id, the handler's only effect is a critical error with code
`INVALID_QUESTION_ID` to the acting caller; in particular no store write
and no store reset happen, so the stored room (its `currentRound.answers`
and `hasAnswered` flags included) is untouched. -/
theorem mismatched_question_id_rejected (rc : String) (store : RoomStore)
    (room : Room) (cr : QuestionRound) (sid qid ans : String)
    (hstore : store rc = some (some room))
    (hcr : room.currentRound = some cr)
    (hne : cr.question.id ≠ qid) :
    submitAnswerHandler (some rc) store sid qid ans =
      [.emitCriticalToCaller "INVALID_QUESTION_ID"] ∧
    (∀ r, SAEffect.storeWrite r ∉ submitAnswerHandler (some rc) store sid qid ans) ∧
    (∀ c, SAEffect.storeResetRoom c ∉ submitAnswerHandler (some rc) store sid qid ans) := by
  have h1 : submitAnswerHandler (some rc) store sid qid ans =
      [.emitCriticalToCaller "INVALID_QUESTION_ID"] := by
    simp only [submitAnswerHandler, getRoom, hstore, hcr]
    rw [if_pos hne]
  exact ⟨h1, fun r => by simp [h1], fun c => by simp [h1]⟩

/-- C7 witness: the theorem applied to the concrete playing room and a
stale question id. -/
theorem mismatched_question_id_rejected_witness :
    submitAnswerHandler (some "ABCD") (fun _ => some (some playingRoom))
        "sockB" "q-stale" "yes" =
      [.emitCriticalToCaller "INVALID_QUESTION_ID"] ∧
    (SAEffect.storeWrite playingRoom ∉
      submitAnswerHandler (some "ABCD") (fun _ => some (some playingRoom))
        "sockB" "q-stale" "yes") := by
  have h := mismatched_question_id_rejected "ABCD" (fun _ => some (some playingRoom))
    playingRoom sampleRound "sockB" "q-stale" "yes" rfl rfl (by decide)
  exact ⟨h.1, h.2.1 playingRoom⟩

/-! ## C9 — fired timers whose room vanished are silent no-ops -/

/-- C9: when the room key is gone from the store at fire time, both the
post-finish timer callback and the next-question timer callback produce no
effect at all: no event is emitted, nothing is written or reset, and no
error is raised (the callbacks return normally with an empty effect list). -/
theorem fired_timer_missing_room_noop (store store2 : RoomStore) (rc : String)
    (h : store rc = none) :
    gameFinishedTimerFire store store2 rc = [] ∧
    nextQuestionTimerFire store rc = [] := by
  constructor
  · simp [gameFinishedTimerFire, getRoom, h]
  · simp [nextQuestionTimerFire, getRoom, h]

/-- C9 witness: the theorem applied to an empty store. -/
theorem fired_timer_missing_room_noop_witness :
    gameFinishedTimerFire (fun _ => none) (fun _ => none) "ABCD" = [] ∧
    nextQuestionTimerFire (fun _ => none) "ABCD" = [] :=
  fired_timer_missing_room_noop (fun _ => none) (fun _ => none) "ABCD" rfl

/-! ## C10 — parseRoom validation is shallow -/

/-- C10: `parseRoom` (hence `getRoom`) accepts `badStoredRoom`, a payload
whose `status` is the arbitrary string "haunted" — none of the three valid
statuses — and whose `players` array holds a number and a string instead of
Player records; the payload is returned as a `Room` rather than treated as
absent, because validation only checks the five shallow field-type
conditions. -/
theorem parse_room_accepts_malformed_payload :
    getRoomFromData (some badStoredRoom) = some badStoredRoom ∧
    parseRoom badStoredRoom = some badStoredRoom ∧
    jsField badStoredRoom "status" = JsValue.str "haunted" ∧
    jsField badStoredRoom "status" ≠ JsValue.str "waiting" ∧
    jsField badStoredRoom "status" ≠ JsValue.str "playing" ∧
    jsField badStoredRoom "status" ≠ JsValue.str "finished" ∧
    jsField badStoredRoom "players" = JsValue.arr [JsValue.num 42, JsValue.str "ghost"] ∧
    getRoomFromData none = none := by
  refine ⟨rfl, rfl, rfl, ?_, ?_, ?_, rfl, rfl⟩ <;>
    · show JsValue.str "haunted" ≠ JsValue.str _
      intro hcontra
      rw [JsValue.str.injEq] at hcontra
      exact absurd hcontra (by decide)

end KnowUsBetter
